import Mathlib

/- Shallow embedding of the rfparser publication-reconciliation engine,
   translated from src/rfparser/__init__.py and src/rfparser/util.py.
   Strings are modelled as Lean Strings (lists of Unicode characters);
   Python dictionaries become structures with Option fields, exceptions
   become Except values, and network calls become explicit environment
   inputs. -/

/-! ## Python string primitives -/

/-- Characters stripped by str.strip() (the ASCII whitespace set; the claims
only exercise these). -/
def isPySpace (c : Char) : Bool :=
  c == ' ' || c == '\t' || c == '\n' || c == '\r' || c == '\x0B' || c == '\x0C'

/-- str.strip(): remove leading and trailing whitespace. -/
def pyStrip (l : List Char) : List Char :=
  ((l.dropWhile isPySpace).reverse.dropWhile isPySpace).reverse

def pyStripStr (s : String) : String :=
  String.mk (pyStrip s.data)

/-- Python c.lower() restricted to ASCII characters: only A-Z change
(matches DOI.lower's `c.lower() if c.isascii() else c`; for the name
matcher the inputs exercised by the spec are ASCII). -/
def asciiLowerChar (c : Char) : Char :=
  if c.toNat ≤ 127 then c.toLower else c

/-- str.rstrip("."): drop trailing dot characters. -/
def rstripDots (l : List Char) : List Char :=
  (l.reverse.dropWhile (· == '.')).reverse

/-- re.split(pattern+, s) semantics for a character-class separator run:
pieces between maximal separator runs, with an empty piece at the start or
end when the string starts or ends with a separator.  Implemented with
explicit fuel so that it reduces definitionally; `splitRuns` supplies
enough fuel for any input. -/
def splitRunsF (p : Char → Bool) : Nat → List Char → List (List Char)
  | 0, _ => []
  | fuel + 1, l =>
    match l.dropWhile (fun c => !p c) with
    | [] => [l.takeWhile (fun c => !p c)]
    | _ :: tail => l.takeWhile (fun c => !p c) :: splitRunsF p fuel (tail.dropWhile p)

def splitRuns (p : Char → Bool) (l : List Char) : List (List Char) :=
  splitRunsF p (l.length + 1) l

/-- Python s.split(sep) for a single-character separator: split at every
occurrence, keeping empty pieces. -/
def splitOnChar (sep : Char) : List Char → List (List Char)
  | [] => [[]]
  | c :: rest =>
    if c == sep then [] :: splitOnChar sep rest
    else
      match splitOnChar sep rest with
      | h :: t => (c :: h) :: t
      | [] => [[c]]

/-- Python s.split() with no argument: words between whitespace runs,
dropping all empty pieces. -/
def pyWords (s : String) : List String :=
  ((splitRuns isPySpace s.data).filter (· != [])).map String.mk

/-- Python `needle in hay` substring test. -/
def containsSub (hay needle : String) : Bool :=
  hay.data.tails.any (fun t => needle.data.isPrefixOf t)

/-- Python str.startswith via list prefix. -/
def pyStartsWith (s pre : String) : Bool :=
  pre.data.isPrefixOf s.data

/-! ## DOI value type (class DOI(str)) -/

namespace DOI

/-- Character class `[\d.]` of the VALID_DOI pattern. -/
def isDigitDot (c : Char) : Bool :=
  c.isDigit || c == '.'

/-- `.` of the VALID_DOI pattern (re.DOTALL is off, so it matches anything
but a newline). -/
def notNewline (c : Char) : Bool :=
  c != '\n'

/-- One anchored attempt of re.search for `[\d.]+/.+` at the head of `l`:
the greedy digits/dots run must be non-empty and be followed by '/', and at
least one non-newline character must follow; the match extends greedily to
the end of the line. -/
def matchHere (l : List Char) : Option (List Char) :=
  if l.takeWhile isDigitDot = [] then none
  else
    match l.dropWhile isDigitDot with
    | '/' :: rest =>
      if rest.takeWhile notNewline = [] then none
      else some (l.takeWhile isDigitDot ++ '/' :: rest.takeWhile notNewline)
    | _ => none

/-- re.search over `[\d.]+/.+`: try each start position left to right. -/
def reSearch : List Char → Option (List Char)
  | [] => none
  | c :: rest =>
    match matchHere (c :: rest) with
    | some m => some m
    | none => reSearch rest

/-- DOI.__new__ : strip whitespace, reject empty/placeholder strings, then
search for the VALID_DOI pattern and keep the matched substring. -/
def parse (s : String) : Except String String :=
  let d := pyStrip s.data
  if String.mk d = "" ∨ String.mk d = "A" ∨ String.mk d = "NA" ∨ String.mk d = "n/a" then
    .error "no DOI"
  else
    match reSearch d with
    | some m => .ok (String.mk m)
    | none => .error "malformed DOI"

/-- DOI.lower: lowercase only the ASCII characters. -/
def lower (s : String) : String :=
  String.mk (s.data.map asciiLowerChar)

/-- DOI.__eq__ : equality on the ASCII-lowercased projection. -/
def beq (a b : String) : Bool :=
  lower a == lower b

/-- A concrete stand-in for Python's string hash, applied (as in
DOI.__hash__) to the ASCII-lowercased form; any deterministic function of
the lowered string models the source's `hash(self.lower())`. -/
def strHash (l : List Char) : Nat :=
  l.foldl (fun h c => h * 31 + c.toNat) 7

def hashVal (s : String) : Nat :=
  strHash (lower s).data

/-- DOI.startswith: case-insensitive (ASCII) prefix test.  The source
lowercases the prefix with str.lower and the DOI with DOI.lower; the two
agree on the ASCII prefixes used in the program. -/
def startswith (s pre : String) : Bool :=
  (lower pre).data.isPrefixOf (lower s).data

/-! Declarative description of the VALID_DOI pattern, used to state the
parsing claim independently of the search implementation. -/

/-- `m` as a whole matches `[\d.]+/.+`. -/
def isDOIMatch (m : List Char) : Prop :=
  ∃ a b, m = a ++ '/' :: b ∧ a ≠ [] ∧ (∀ c ∈ a, isDigitDot c = true) ∧
    b ≠ [] ∧ (∀ c ∈ b, notNewline c = true)

/-- `m` occurs in `l` starting at index `i`. -/
def matchAt (l : List Char) (i : Nat) (m : List Char) : Prop :=
  m <+: l.drop i

/-- Some substring of `l` matches the VALID_DOI pattern. -/
def containsMatch (l : List Char) : Prop :=
  ∃ i m, isDOIMatch m ∧ matchAt l i m

end DOI

/-! ## Module constants -/

def KNOWN_BOOK_SERIES : List String :=
  ["Advances in Experimental Medicine and Biology",
   "Advances in Microbial Physiology",
   "Compendium of Plant Genomes",
   "Genome Dynamics",
   "Lecture Notes in Computer Science",
   "Methods in Cell Biology",
   "Methods in Enzymology",
   "Methods in Molecular Biology"]

def DC_resourceTypeGeneral_TO_CR_TYPE : List (String × String) :=
  [("BookChapter", "book-chapter"),
   ("ConferencePaper", "proceedings-article"),
   ("JournalArticle", "journal-article"),
   ("Preprint", "preprint")]

def CR_TYPE_TO_XML_CATEGORY_ID : List (String × String) :=
  [("book-chapter", "2"),
   ("journal-article", "1"),
   ("preprint", "124"),
   ("proceedings-article", "2")]

def XML_CATEGORY_ID_TO_CATEGORY : List (String × String) :=
  [("1", "Journal Article"),
   ("2", "Book chapter"),
   ("124", "PrePrint")]

def UNPAYWALL_OA_STATUS_TO_XML_OPENACCESS : List (String × String) :=
  [("bronze", "Bronze Open Access"),
   ("closed", "No Open Access"),
   ("gold", "Gold Open Access"),
   ("green", "Green Open Access"),
   ("hybrid", "Gold Open Access")]

/-- Dictionary lookup (KeyError modelled as `none`). -/
def lookupStr (m : List (String × String)) (k : String) : Option String :=
  (m.find? (fun kv => kv.1 == k)).map (·.2)

/-- Keys of BROKEN_DOI_TO_REASON. -/
def BROKEN_DOIS : List String :=
  ["10.5281/zenodo.7333887", "10.5281/zenodo.7333888"]

/-- `doi in BROKEN_DOI_TO_REASON`: dict membership uses DOI equality. -/
def brokenDoi (doi : String) : Bool :=
  BROKEN_DOIS.any (fun b => DOI.beq b doi)

/-! ## util.py: is_same_person and helpers -/

/-- Character class of NAME_SPLITTER_PATTERN `[\s-]+`. -/
def isNameSep (c : Char) : Bool :=
  isPySpace c || c == '-'

/-- `[name.rstrip(".").lower() for name in NAME_SPLITTER_PATTERN.split(s)]` -/
def processName (s : String) : List (List Char) :=
  (splitRuns isNameSep s.data).map (fun t => (rstripDots t).map asciiLowerChar)

/-- One pairwise given-name token comparison from is_same_person:
equal, or `name1[0] == name2`, or `name1 == name2[0]`; indexing an empty
token raises IndexError. -/
def givenTokenMatch (t1 t2 : List Char) : Except String Bool :=
  if t1 = t2 then .ok true
  else
    match t1 with
    | [] => .error "IndexError"
    | c :: _ =>
      if [c] = t2 then .ok true
      else
        match t2 with
        | [] => .error "IndexError"
        | d :: _ => .ok (t1 = [d])

/-- The given-name comparison loop: stop at the first mismatch (False) or
at the end of the zipped lists (True). -/
def givenZipLoop : List (List Char × List Char) → Except String Bool
  | [] => .ok true
  | (t1, t2) :: rest => do
    let r ← givenTokenMatch t1 t2
    if r then givenZipLoop rest else .ok false

/-- util.is_same_person.  The asserts on the family names and the
IndexError on empty tokens surface as Except.error. -/
def is_same_person (family_names1 given_names1 family_names2 given_names2 : String) :
    Except String Bool :=
  if family_names1 = "" then .error "AssertionError: family_names1" else
  if family_names2 = "" then .error "AssertionError: family_names2" else
  let fl1 := processName family_names1
  let fl2 := processName family_names2
  if (fl1.zip fl2).any (fun ab => !(ab.1 == ab.2)) then .ok false
  else if given_names1 = "" ∧ given_names2 = "" then .ok true
  else if given_names1 = "" ∨ given_names2 = "" then .ok false
  else givenZipLoop ((processName given_names1).zip (processName given_names2))

/-! ## ORCID sanitisation -/

/-- Position-wise shape of VALID_ORCID_ID `^\d{4}-\d{4}-\d{4}-\d{3}[\dX]$`. -/
def isOrcidChar (i : Nat) (c : Char) : Bool :=
  if i == 4 || i == 9 || i == 14 then c == '-'
  else if i == 18 then c.isDigit || c == 'X'
  else c.isDigit

def orcidShape (l : List Char) : Bool :=
  l.enum.all (fun ic => isOrcidChar ic.1 ic.2)

/-- sanitise_orcid_id: falsy input gives None; otherwise take the part
after the last '/', check length 19 and the ORCID pattern (assert on
failure), and return the canonical URL form. -/
def sanitise_orcid_id (orcid_id : Option String) : Except String (Option String) :=
  match orcid_id with
  | none => .ok none
  | some s =>
    if s = "" then .ok none
    else
      let number := (s.data.reverse.takeWhile (· != '/')).reverse
      if number.length == 19 && orcidShape number then
        .ok (some (String.mk ("https://orcid.org/".data ++ number)))
      else .error "AssertionError: Malformed ORCID id"

/-! ## Researcher / Author / User -/

/-- Truthiness of an optional Python string. -/
def truthy : Option String → Bool
  | none => false
  | some s => s != ""

/-- Raw Crossref author dictionary. -/
structure AuthorDict where
  family : Option String := none
  given : Option String := none
  name : Option String := none
  orcid : Option String := none

/-- datacite nameIdentifier entry. -/
structure NameIdentifier where
  nameIdentifierScheme : String
  nameIdentifier : String

/-- Raw DataCite creator dictionary. -/
structure CreatorDict where
  nameIdentifiers : List NameIdentifier := []
  familyName : Option String := none
  givenName : Option String := none
  name : Option String := none

/-- An Author after construction: either family(+given) names or a sole
name, plus a sanitised ORCID URL. -/
structure Author where
  family_names : Option String := none
  given_names : Option String := none
  name : Option String := none
  orcid_id : Option String := none

/-- Author.from_CR: family names if truthy, else a sole name, else an
error; the ORCID is sanitised during construction. -/
def Author.from_CR (a : AuthorDict) : Except String Author :=
  if truthy a.family then
    (sanitise_orcid_id a.orcid).map (fun o =>
      { family_names := a.family, given_names := a.given, name := none, orcid_id := o })
  else if truthy a.name then
    (sanitise_orcid_id a.orcid).map (fun o =>
      { family_names := none, given_names := none, name := a.name, orcid_id := o })
  else .error "Unrecognised author_dict format"

/-- Author.from_DC: the ORCID comes from the last nameIdentifier with
scheme ORCID (the loop overwrites). -/
def Author.from_DC (c : CreatorDict) : Except String Author :=
  let orcid := c.nameIdentifiers.foldl
    (fun acc nid => if nid.nameIdentifierScheme == "ORCID" then some nid.nameIdentifier else acc)
    none
  if truthy c.familyName then
    (sanitise_orcid_id orcid).map (fun o =>
      { family_names := c.familyName, given_names := c.givenName, name := none, orcid_id := o })
  else if truthy c.name then
    (sanitise_orcid_id orcid).map (fun o =>
      { family_names := none, given_names := none, name := c.name, orcid_id := o })
  else .error "Unrecognised creator_dict format"

/-- First character of each whitespace-separated word of the given names. -/
def initialsOf (g : String) : List Char :=
  (((splitRuns isPySpace g.data).filter (· != [])).map (fun w => w.headD ' '))

/-- Author.to_contributor_format.  (Constructed authors always carry a sole
name when the family names are absent, so the `getD ""` default is never
exercised.) -/
def Author.to_contributor_format (a : Author) : String :=
  if truthy a.family_names then
    if truthy a.given_names then
      a.family_names.getD "" ++ " " ++ String.mk (initialsOf (a.given_names.getD ""))
    else a.family_names.getD ""
  else a.name.getD ""

/-- A roster entry from the people-data CSV. -/
structure User where
  username : String
  family_names : String
  given_names : String
  orcid_id : Option String := none

/-- The duplicate-elimination step of get_users: position i is marked when
some later entry has the same given and family names, and all marked
positions are deleted (the source deletes them in reverse index order,
which removes exactly the marked positions). -/
def get_users_dedup (users : List User) : List User :=
  (users.enum.filter (fun iu =>
    !((users.drop (iu.1 + 1)).any (fun u2 =>
      iu.2.given_names == u2.given_names && iu.2.family_names == u2.family_names)))).map
    Prod.snd

/-! ## util.py: misc helpers -/

/-- util.strip_tags, modelled as removal of '<'..'>' tag spans (the
HTMLParser-based source strips exactly these for plain markup; entities
and malformed markup are outside the claims). -/
def strip_tags_go : Bool → List Char → List Char
  | _, [] => []
  | true, c :: rest => if c == '>' then strip_tags_go false rest else strip_tags_go true rest
  | false, c :: rest => if c == '<' then strip_tags_go true rest else c :: strip_tags_go false rest

def strip_tags (s : String) : String :=
  String.mk (strip_tags_go false s.data)

/-- `" ".join(itertools.chain.from_iterable(part.split() for part in parts))` -/
def joinTitleParts (parts : List String) : String :=
  String.intercalate " " (parts.map pyWords).flatten

/-- A Python scalar that may land in the year/month/day fields: Crossref
supplies ints, DataCite supplies strings. -/
inductive PyVal
  | int (n : Int)
  | str (s : String)

def pyValStr : PyVal → String
  | .int n => toString n
  | .str s => s

/-- util.str_if_not_None. -/
def str_if_not_None (v : Option PyVal) : Option String :=
  v.map pyValStr

/-- util.extend_list_to_size (the source pads with None; the result is a
list of optional values). -/
def extend_list_to_size {α : Type} (t : List α) (size : Nat) : List (Option α) :=
  t.map some ++ List.replicate (size - t.length) none

/-- Tuple unpacking `a, b, c = l`: ValueError unless the list has exactly
three elements. -/
def unpack3 {α : Type} : List (Option α) → Except String (Option α × Option α × Option α)
  | [a, b, c] => .ok (a, b, c)
  | _ => .error "ValueError: unpack"

/-- util.unique: unique elements preserving first-occurrence order. -/
def unique {α : Type} [BEq α] (l : List α) : List α :=
  (l.foldl (fun acc x => if acc.contains x then acc else x :: acc) []).reverse

/-! ## Resilient fetcher (get_url) -/

def REQUEST_RETRIES : Nat := 3

def REQUEST_RETRIES_BACKOFF_FACTOR : ℚ := 1

/-- What attempt i observes: a transport-level exception, or a response
with an HTTP status code. -/
inductive Attempt
  | exc
  | resp (status : Nat)

/-- How a get_url call ends. -/
inductive FetchOutcome
  | success (attempt : Nat)
  | clientError (attempt status : Nat)
  | exhausted

/-- `backoff_time = 0 if i == 0 else REQUEST_RETRIES_BACKOFF_FACTOR * (2**i)` -/
def backoff (i : Nat) : ℚ :=
  if i = 0 then 0 else REQUEST_RETRIES_BACKOFF_FACTOR * 2 ^ i

/-- The retry loop of get_url over an environment of attempt outcomes.
Returns the outcome together with the list of sleep durations performed,
in order.  A transport exception sleeps and retries.  On a response,
`raise_for_status` raises only for statuses in [400,600): anything
outside that band (including ≥ 600) raises nothing, so the loop breaks
and the response is returned; a status in [400,500) is re-raised
immediately as a client error; a status in [500,600) is logged, sleeps,
and retries.  Running out of attempts is the for-else branch. -/
def getUrlGo (env : Nat → Attempt) : Nat → Nat → FetchOutcome × List ℚ
  | 0, _ => (.exhausted, [])
  | n + 1, i =>
    match env i with
    | .exc =>
      let r := getUrlGo env n (i + 1)
      (r.1, backoff i :: r.2)
    | .resp st =>
      if st < 400 ∨ 600 ≤ st then (.success i, [])
      else if st < 500 then (.clientError i st, [])
      else
        let r := getUrlGo env n (i + 1)
        (r.1, backoff i :: r.2)

def get_url (env : Nat → Attempt) (retries : Nat := REQUEST_RETRIES) : FetchOutcome × List ℚ :=
  getUrlGo env retries 0

/-! ## Exceptions and the fatal/contained distinction -/

/-- Exceptions that can escape a record's enrichment: the fetcher's
exhausted-retries error (whose str is "Failed too many times to get URL "
followed by the url), or any other exception carrying its message. -/
inductive RfError
  | exhausted (url : String)
  | other (msg : String)

/-- str(e) for the modelled exceptions. -/
def RfError.message : RfError → String
  | .exhausted url => "Failed too many times to get URL " ++ url
  | .other m => m

/-- The containment test in main's per-record handler:
`str(e).startswith("Failed too many times to get URL")`. -/
def isFatal (e : RfError) : Bool :=
  pyStartsWith e.message "Failed too many times to get URL"

/-! ## Per-agency metadata -/

structure CRInstitution where
  name : String

/-- The fields of a Crossref works message that the normalizer reads. -/
structure CRMeta where
  title : List String := []
  type : String := ""
  subtype : Option String := none
  containerTitle : List String := []
  institution : Option (List CRInstitution) := none
  publisher : String := ""
  groupTitle : Option String := none
  volume : Option String := none
  page : Option String := none
  author : Option (List AuthorDict) := none
  issuedDateParts : List (List Int) := []

structure DCDate where
  dateType : String
  date : String

/-- The fields of a DataCite attributes object that the normalizer reads. -/
structure DCMeta where
  titles : List String := []
  resourceTypeGeneral : String := ""
  publisher : Option String := none
  containerTruthy : Bool := false
  volume : Option String := none
  firstPage : Option String := none
  lastPage : Option String := none
  creators : List CreatorDict := []
  dates : List DCDate := []

/-- The doiRA directory response: either an RA name or a status. -/
structure RAResp where
  RA : Option String := none
  status : String := ""

/-- The per-record upstream environment: each network interaction either
yields its parsed payload or raises (client error, exhausted retries...). -/
structure Env where
  raResp : Except RfError RAResp
  crMeta : Except RfError CRMeta
  oaStatus : Except RfError String
  dcMeta : Except RfError DCMeta

/-- The publication record accumulated in pubs_with_doi.  An outer `none`
means the dictionary key is absent; `some none` means the key holds
Python None. -/
structure Pub where
  nbirosContributorIds : List String := []
  metadata_ok : Bool := false
  RA : Option String := none
  title : Option String := none
  type : Option String := none
  container_title : Option String := none
  series_title : Option String := none
  volume : Option (Option String) := none
  pages : Option (Option String) := none
  authors : Option (List Author) := none
  year : Option (Option PyVal) := none
  month : Option (Option PyVal) := none
  day : Option (Option PyVal) := none
  oa_status : Option String := none

/-- How one record's enrichment ends: full success, a deliberate skip
(`continue`), or an exception reaching the per-record handler. -/
inductive PubOutcome
  | ok
  | skipped
  | exc (e : RfError)

/-- Crossref type resolution: remap posted-content through its subtype
(which must be "preprint"), then require membership in the category
table. -/
def crResolveType (m : CRMeta) : Except String String :=
  if m.type == "posted-content" then
    match m.subtype with
    | some st =>
      if st == "preprint" then
        if (lookupStr CR_TYPE_TO_XML_CATEGORY_ID st).isSome then .ok st
        else .error ("unknown publication type " ++ st)
      else .error "AssertionError: unknown subtype"
    | none => .error "KeyError: subtype"
  else
    if (lookupStr CR_TYPE_TO_XML_CATEGORY_ID m.type).isSome then .ok m.type
    else .error ("unknown publication type " ++ m.type)

/-- Crossref container-title resolution by arity, returning the container
title and, for the two-element book-chapter case, the series title. -/
def crResolveContainer (doi : String) (ptype : String) (m : CRMeta) :
    Except String (String × Option String) :=
  match m.containerTitle with
  | [] =>
    if ptype != "preprint" then
      .error ("publication of type " ++ ptype ++ " cannot have empty container-title")
    else
      match m.institution with
      | some (i :: is') =>
        if is'.length == 0 then .ok (i.name, none)
        else .error "AssertionError: institution with multiple or no elements"
      | _ =>
        if containsSub m.publisher "Research Square" then .ok ("Research Square", none)
        else if containsSub m.publisher "PeerJ" || DOI.startswith doi "10.37044/osf.io/" then
          match m.groupTitle with
          | some g => .ok (g, none)
          | none => .error "KeyError: group-title"
        else if DOI.startswith doi "10.17504/protocols.io." then .ok ("protocols.io", none)
        else .error "cannot determine preprint journal"
  | [ct] => .ok (ct, none)
  | ct0 :: ct1 :: rest =>
    if ptype != "book-chapter" then
      .error ("publication of type " ++ ptype ++ " cannot have container-title with multiple elements")
    else if rest.length != 0 then
      .error "AssertionError: container-title with more than 2 elements"
    else if KNOWN_BOOK_SERIES.contains ct0 then .ok (ct1, some ct0)
    else if KNOWN_BOOK_SERIES.contains ct1 then .ok (ct0, some ct1)
    else .error "publication of type book-chapter has container-title with unknown book series"

/-- `assert authors` then the author list comprehension. -/
def crAuthors : Option (List AuthorDict) → Except String (List Author)
  | none => .error "AssertionError: missing authors"
  | some [] => .error "AssertionError: missing authors"
  | some (a :: rest) => (a :: rest).mapM Author.from_CR

/-- The Crossref branch of the enrichment loop body.  Fields are assigned
on the record in source order; a failure returns the record as mutated so
far, with the exception. -/
def crBranch (doi : String) (p : Pub) (env : Env) : Pub × PubOutcome :=
  match env.crMeta with
  | .error e => (p, .exc e)
  | .ok m =>
    let p := { p with title := some (strip_tags (joinTitleParts m.title)) }
    match crResolveType m with
    | .error msg => (p, .exc (.other msg))
    | .ok ptype =>
      let p := { p with type := some ptype }
      match crResolveContainer doi ptype m with
      | .error msg => (p, .exc (.other msg))
      | .ok ctst =>
        let p := { p with container_title := some ctst.1,
                          series_title := match ctst.2 with
                            | some s => some s
                            | none => p.series_title }
        let p := { p with volume := some m.volume, pages := some m.page }
        match crAuthors m.author with
        | .error msg => (p, .exc (.other msg))
        | .ok authors =>
          let p := { p with authors := some authors }
          match m.issuedDateParts.head? with
          | none => (p, .exc (.other "IndexError: date-parts"))
          | some parts =>
            match unpack3 (extend_list_to_size (parts.map PyVal.int) 3) with
            | .error msg => (p, .exc (.other msg))
            | .ok ymd =>
              let p := { p with year := some ymd.1, month := some ymd.2.1, day := some ymd.2.2 }
              match env.oaStatus with
              | .error e => (p, .exc e)
              | .ok oa => ({ p with oa_status := some oa, metadata_ok := true }, .ok)

/-- The tail of the DataCite branch once the container title is known. -/
def dcAfterContainer (p : Pub) (m : DCMeta) (ct : String) : Pub × PubOutcome :=
  let p := { p with container_title := some ct }
  let p := { p with volume := some m.volume }
  let pages : Option String :=
    if truthy m.firstPage && truthy m.lastPage then
      some (m.firstPage.getD "" ++ "-" ++ m.lastPage.getD "")
    else m.firstPage
  let p := { p with pages := some pages }
  match m.creators with
  | [] => (p, .exc (.other "AssertionError: missing authors"))
  | c :: rest =>
    match (c :: rest).mapM Author.from_DC with
    | .error msg => (p, .exc (.other msg))
    | .ok authors =>
      let p := { p with authors := some authors }
      match m.dates.find? (fun d => d.dateType == "Issued") with
      | none => (p, .exc (.other "AssertionError: missing issued date"))
      | some dd =>
        if dd.date == "" then (p, .exc (.other "AssertionError: missing issued date"))
        else
          match unpack3 (extend_list_to_size
              ((splitOnChar '-' (dd.date.data.take 10)).map (fun cs => PyVal.str (String.mk cs))) 3) with
          | .error msg => (p, .exc (.other msg))
          | .ok ymd =>
            let p := { p with year := some ymd.1, month := some ymd.2.1, day := some ymd.2.2 }
            ({ p with oa_status := some "green", metadata_ok := true }, .ok)

/-- The DataCite branch of the enrichment loop body. -/
def dcBranch (doi : String) (p : Pub) (env : Env) : Pub × PubOutcome :=
  match env.dcMeta with
  | .error e => (p, .exc e)
  | .ok m =>
    match m.titles.head? with
    | none => (p, .exc (.other "IndexError: titles"))
    | some t =>
      let p := { p with title := some t }
      match lookupStr DC_resourceTypeGeneral_TO_CR_TYPE m.resourceTypeGeneral with
      | none => (p, .exc (.other ("unknown publication type " ++ m.resourceTypeGeneral)))
      | some ptype =>
        let p := { p with type := some ptype }
        if ptype == "preprint" then
          if truthy m.publisher then dcAfterContainer p m (m.publisher.getD "")
          else (p, .exc (.other "publication of type preprint cannot have empty publisher"))
        else
          if !m.containerTruthy && DOI.startswith doi "10.17863/cam." then (p, .skipped)
          else (p, .exc (.other "Unhandled situation!"))

/-- One iteration of the enrichment loop in main: reset metadata_ok,
short-circuit broken DOIs, resolve the registration agency, and dispatch
to the matching normalizer.  The returned record carries every field
assigned before a failure. -/
def processRecord (doi : String) (p0 : Pub) (env : Env) : Pub × PubOutcome :=
  let p := { p0 with metadata_ok := false }
  if brokenDoi doi then (p, .skipped)
  else
    match env.raResp with
    | .error e => (p, .exc e)
    | .ok ra =>
      match ra.RA with
      | none => (p, .exc (.other ra.status))
      | some raName =>
        let p := { p with RA := some raName }
        if raName == "Crossref" || raName == "OP" then crBranch doi p env
        else if raName == "DataCite" then dcBranch doi p env
        else (p, .exc (.other ("Registration agency is " ++ raName ++ ", which is not currently handled")))

/-- The enrichment loop over all records: an exception whose message has
the exhausted-retries prefix is re-raised and aborts the run; every other
exception is logged and the loop continues. -/
def enrichLoop : List (String × Pub × Env) → Except RfError (List (String × Pub))
  | [] => .ok []
  | (doi, p, env) :: rest =>
    let r := processRecord doi p env
    match r.2 with
    | .exc e =>
      if isFatal e then .error e
      else (enrichLoop rest).map (fun l => (doi, r.1) :: l)
    | _ => (enrichLoop rest).map (fun l => (doi, r.1) :: l)

/-- Whether a record's enrichment raises an exception that the per-record
handler re-raises (aborting the whole run). -/
def abortsRecord : String × Pub × Env → Bool
  | (doi, p, env) =>
    match (processRecord doi p env).2 with
    | .exc e => isFatal e
    | _ => false

/-! ## Output serialization (write_xml_output) -/

/-- The name-comparison filter over the roster inside
author_dict_to_username; the `and` short-circuit means is_same_person is
not called (and cannot raise) for users skipped by the ORCID condition. -/
def filterUsersE : List User → Bool → String → String → Except String (List User)
  | [], _, _, _ => .ok []
  | u :: rest, authorHasOrcid, fam, giv => do
    let keep ←
      if authorHasOrcid && truthy u.orcid_id then pure false
      else is_same_person u.family_names u.given_names fam giv
    let l ← filterUsersE rest authorHasOrcid fam giv
    pure (if keep then u :: l else l)

/-- author_dict_to_username: ORCID match first (first-found wins), then
fuzzy family/given-name match over roster users without an ORCID when the
author has one; sole-name authors match nobody. -/
def author_dict_to_username (users : List User) (a : Author) : Except String (Option String) :=
  let byOrcid : Option String :=
    match a.orcid_id with
    | some o =>
      if o != "" then ((users.filter (fun u => u.orcid_id == some o)).map User.username).head?
      else none
    | none => none
  match byOrcid with
  | some uname => .ok (some uname)
  | none =>
    match a.family_names with
    | some fam =>
      if fam != "" then
        (filterUsersE users (truthy a.orcid_id) fam (a.given_names.getD "")).map
          (fun l => (l.map User.username).head?)
      else .ok none
    | none => .ok none

/-- The ContributorIds computation: usernames resolved from the authors,
extended with the comma-separated legacy contributor ids, filtered of
None/empty entries and de-duplicated preserving order. -/
def contributorIds (users : List User) (authors : List Author) (nbiros : List String) :
    Except String (List String) := do
  let resolved ← authors.mapM (author_dict_to_username users)
  let fromNbiros := (nbiros.map (fun txt =>
    (splitOnChar ',' txt.data).map (fun cs => pyStripStr (String.mk cs)))).flatten
  let allIds := resolved ++ fromNbiros.map some
  pure (unique ((allIds.filterMap id).filter (fun s => s != "")))

/-- The values extracted from a record while serializing it. -/
structure PubXmlFields where
  categoryId : String
  category : String
  title : String
  containerTitle : String
  seriesTitle : Option String
  volume : Option String
  pages : Option String
  contributorIdsText : String
  contributorListText : String
  year : Option String
  month : Option String
  day : Option String
  openAccess : String

/-- The (tag, text) pairs emitted for one record, in document order; a
text of `none` is an element emitted with no text (an empty element in
the XML).  The venue slot depends on the category: journal articles and
preprints carry the container title as JournalName; book chapters carry
an empty JournalName, a BookTitle, and a SeriesTitle only when the
series-title key is present. -/
def pub_element_list (doi : String) (f : PubXmlFields) : List (String × Option String) :=
  [("id", some doi), ("Organisation", some "EI"), ("Category", some f.category),
   ("CategoryID", some f.categoryId), ("Title", some f.title), ("DOI", some doi)] ++
  (if f.categoryId == "1" || f.categoryId == "124" then
    [("JournalName", some f.containerTitle)]
  else
    [("JournalName", some ""), ("BookTitle", some f.containerTitle)] ++
      (match f.seriesTitle with
        | some s => [("SeriesTitle", some s)]
        | none => [])) ++
  [("JournalVolume", f.volume), ("JournalPages", f.pages),
   ("ContributorIds", some f.contributorIdsText),
   ("ContributorList", some f.contributorListText),
   ("Year", f.year), ("Month", f.month), ("Day", f.day),
   ("OpenAccess", some f.openAccess)]

/-- The per-record serialization performed by write_xml_output for a
record with metadata_ok: extract each dictionary value in source order
(missing keys or table entries are KeyErrors) and emit the element
list. -/
def write_pub_elements (users : List User) (doi : String) (p : Pub) :
    Except String (List (String × Option String)) :=
  match p.type with
  | none => .error "KeyError: type"
  | some ptype =>
    match lookupStr CR_TYPE_TO_XML_CATEGORY_ID ptype with
    | none => .error "KeyError: category id"
    | some categoryId =>
      match lookupStr XML_CATEGORY_ID_TO_CATEGORY categoryId with
      | none => .error "KeyError: category"
      | some category =>
        match p.title with
        | none => .error "KeyError: title"
        | some title =>
          match p.container_title with
          | none => .error "KeyError: container-title"
          | some containerTitle =>
            match p.volume with
            | none => .error "KeyError: volume"
            | some vol =>
              match p.pages with
              | none => .error "KeyError: pages"
              | some pg =>
                match p.authors with
                | none => .error "KeyError: authors"
                | some authors =>
                  match contributorIds users authors p.nbirosContributorIds with
                  | .error msg => .error msg
                  | .ok cids =>
                    match p.year with
                    | none => .error "KeyError: year"
                    | some y =>
                      match p.month with
                      | none => .error "KeyError: month"
                      | some mo =>
                        match p.day with
                        | none => .error "KeyError: day"
                        | some d =>
                          match p.oa_status with
                          | none => .error "KeyError: oa_status"
                          | some oaRaw =>
                            match lookupStr UNPAYWALL_OA_STATUS_TO_XML_OPENACCESS oaRaw with
                            | none => .error "KeyError: oa label"
                            | some oa =>
                              .ok (pub_element_list doi
                                { categoryId := categoryId, category := category,
                                  title := title, containerTitle := containerTitle,
                                  seriesTitle := p.series_title, volume := vol, pages := pg,
                                  contributorIdsText := String.intercalate ", " cids,
                                  contributorListText := String.intercalate ", "
                                    (authors.map Author.to_contributor_format),
                                  year := str_if_not_None y, month := str_if_not_None mo,
                                  day := str_if_not_None d, openAccess := oa })

/-! ## Claim theorems -/

/-- C3: DOI equality is an equivalence relation, case-insensitive over
ASCII characters only: DOIs differing only in ASCII case are equal (and
hash equal), DOIs differing in a non-ASCII character's case are distinct,
and equal DOIs always hash equally. -/
theorem C3_doi_equality :
    Equivalence (fun a b : String => DOI.beq a b = true) ∧
    DOI.parse "10.1/ABC" = .ok "10.1/ABC" ∧
    DOI.parse "10.1/abc" = .ok "10.1/abc" ∧
    DOI.beq "10.1/ABC" "10.1/abc" = true ∧
    DOI.parse "10.1/Ä" = .ok "10.1/Ä" ∧
    DOI.parse "10.1/ä" = .ok "10.1/ä" ∧
    DOI.beq "10.1/Ä" "10.1/ä" = false ∧
    (∀ a b : String, DOI.beq a b = true → DOI.hashVal a = DOI.hashVal b) := by
  refine ⟨⟨fun a => ?_, fun h => ?_, fun h1 h2 => ?_⟩, by rfl, by rfl, by rfl, by rfl, by rfl,
    by rfl, fun a b h => ?_⟩
  · simp [DOI.beq]
  · simp only [DOI.beq, beq_iff_eq] at *
    exact h.symm
  · simp only [DOI.beq, beq_iff_eq] at *
    exact h1.trans h2
  · simp only [DOI.beq, beq_iff_eq] at h
    simp [DOI.hashVal, h]

/-- Witness for C3: two concrete ASCII-case variants are equal and hash
equally. -/
theorem C3_doi_equality_witness :
    DOI.hashVal "10.1/AB" = DOI.hashVal "10.1/ab" :=
  C3_doi_equality.2.2.2.2.2.2.2 "10.1/AB" "10.1/ab" (by rfl)

/-- The retry loop unfolded by one attempt. -/
theorem getUrl_step (env : Nat → Attempt) (n i : Nat) :
    getUrlGo env (n + 1) i =
      match env i with
      | .exc => ((getUrlGo env n (i + 1)).1, backoff i :: (getUrlGo env n (i + 1)).2)
      | .resp st =>
        if st < 400 ∨ 600 ≤ st then (.success i, [])
        else if st < 500 then (.clientError i st, [])
        else ((getUrlGo env n (i + 1)).1, backoff i :: (getUrlGo env n (i + 1)).2) := rfl

/-- C4 counterexample: a response with status 600 is outside the band in
which raise_for_status raises, so the fetcher returns it as a success on
the first attempt with no sleep and no retry — even though a 200 would
follow on the next attempt — refuting the claim that every status ≥ 500
is retried (the claim predicts the retried outcome, success on attempt 1
after one sleep). -/
theorem C4_counterexample :
    get_url (fun i => if i = 0 then Attempt.resp 600 else Attempt.resp 200) =
      (.success 0, []) ∧
    (FetchOutcome.success 0, ([] : List ℚ)) ≠ (FetchOutcome.success 1, [backoff 0]) := by
  constructor
  · show getUrlGo (fun i => if i = 0 then Attempt.resp 600 else Attempt.resp 200) (2 + 1) 0 =
      (.success 0, [])
    rw [getUrl_step]
    norm_num
  · intro h
    have := congrArg Prod.fst h
    simp at this

/-- C4 (amended): the fetcher fails immediately and without sleeping on
any 4xx status; it retries on transport exceptions and on statuses in
[500,600) — the band where raise_for_status raises a server error — while
a response with status ≥ 600 raises nothing and is returned as a success
immediately, without retry; a fetch failing twice with 503 then
succeeding returns the third response after exactly two sleeps of
strictly increasing durations; a 404 never retries. -/
theorem C4_amended_retry :
    (∀ st, 400 ≤ st → st < 500 → ∀ env : Nat → Attempt, env 0 = .resp st →
      get_url env = (.clientError 0 st, [])) ∧
    (∀ env : Nat → Attempt, env 0 = .resp 503 → env 1 = .resp 503 → env 2 = .resp 200 →
      get_url env = (.success 2, [backoff 0, backoff 1]) ∧ backoff 0 < backoff 1) ∧
    (∀ env : Nat → Attempt, env 0 = .exc → env 1 = .resp 200 →
      get_url env = (.success 1, [backoff 0])) ∧
    (∀ st, 500 ≤ st → st < 600 → ∀ env : Nat → Attempt, env 0 = .resp st →
      env 1 = .resp 200 → get_url env = (.success 1, [backoff 0])) ∧
    (∀ st, 600 ≤ st → ∀ env : Nat → Attempt, env 0 = .resp st →
      get_url env = (.success 0, [])) ∧
    (∀ env : Nat → Attempt, env 0 = .resp 404 → get_url env = (.clientError 0 404, [])) := by
  refine ⟨fun st h1 h2 env h0 => ?_, fun env h0 h1 h2 => ⟨?_, ?_⟩, fun env h0 h1 => ?_,
    fun st h1 h1' env h0 h2 => ?_, fun st h6 env h0 => ?_, fun env h0 => ?_⟩
  · show getUrlGo env (2 + 1) 0 = (.clientError 0 st, [])
    rw [getUrl_step, h0]
    simp only [if_neg (by omega : ¬ (st < 400 ∨ 600 ≤ st)), if_pos h2]
  · have s2 : getUrlGo env (0 + 1) 2 = (.success 2, []) := by
      rw [getUrl_step, h2]
      norm_num
    have s1 : getUrlGo env (1 + 1) 1 = (.success 2, [backoff 1]) := by
      rw [getUrl_step, h1]
      norm_num [s2]
    show getUrlGo env (2 + 1) 0 = (.success 2, [backoff 0, backoff 1])
    rw [getUrl_step, h0]
    norm_num [s1]
  · norm_num [backoff, REQUEST_RETRIES_BACKOFF_FACTOR]
  · have s1 : getUrlGo env (1 + 1) 1 = (.success 1, []) := by
      rw [getUrl_step, h1]
      norm_num
    show getUrlGo env (2 + 1) 0 = (.success 1, [backoff 0])
    rw [getUrl_step, h0]
    norm_num [s1]
  · have s1 : getUrlGo env (1 + 1) 1 = (.success 1, []) := by
      rw [getUrl_step, h2]
      norm_num
    show getUrlGo env (2 + 1) 0 = (.success 1, [backoff 0])
    rw [getUrl_step, h0]
    simp only [if_neg (by omega : ¬ (st < 400 ∨ 600 ≤ st)),
      if_neg (by omega : ¬ st < 500)]
    norm_num [s1]
  · show getUrlGo env (2 + 1) 0 = (.success 0, [])
    rw [getUrl_step, h0]
    simp only [if_pos (Or.inr h6)]
  · show getUrlGo env (2 + 1) 0 = (.clientError 0 404, [])
    rw [getUrl_step, h0]
    norm_num

/-- Witness for C4: a concrete environment answering 404 on the first
attempt fails immediately with no sleeps. -/
theorem C4_amended_retry_witness :
    get_url (fun _ => Attempt.resp 404) = (.clientError 0 404, []) :=
  C4_amended_retry.1 404 (by omega) (by omega) (fun _ => Attempt.resp 404) rfl

/-- C6: a book-chapter with a 2-element container-title list of which
exactly one element is a known book series resolves, in either input
order, to the non-series element as container title and the series
element as series title; if neither element is known, resolution fails. -/
theorem C6_book_chapter_series :
    (∀ (doi x y : String) (m : CRMeta),
      KNOWN_BOOK_SERIES.contains x = true → KNOWN_BOOK_SERIES.contains y = false →
      (m.containerTitle = [x, y] →
        crResolveContainer doi "book-chapter" m = .ok (y, some x)) ∧
      (m.containerTitle = [y, x] →
        crResolveContainer doi "book-chapter" m = .ok (y, some x))) ∧
    (∀ (doi x y : String) (m : CRMeta),
      KNOWN_BOOK_SERIES.contains x = false → KNOWN_BOOK_SERIES.contains y = false →
      m.containerTitle = [x, y] →
      crResolveContainer doi "book-chapter" m =
        .error "publication of type book-chapter has container-title with unknown book series") := by
  refine ⟨fun doi x y m hx hy => ⟨fun hct => ?_, fun hct => ?_⟩, fun doi x y m hx hy hct => ?_⟩
  all_goals
    first
      | (have hx' : x ∈ KNOWN_BOOK_SERIES := by simpa using hx
         have hy' : y ∉ KNOWN_BOOK_SERIES := by simpa using hy
         unfold crResolveContainer
         rw [hct]
         simp [hx', hy'])
      | (have hx' : x ∉ KNOWN_BOOK_SERIES := by simpa using hx
         have hy' : y ∉ KNOWN_BOOK_SERIES := by simpa using hy
         unfold crResolveContainer
         rw [hct]
         simp [hx', hy'])

/-- Witness for C6: a concrete two-element container-title list with the
known series listed first. -/
theorem C6_book_chapter_series_witness :
    crResolveContainer "10.1/x" "book-chapter"
        { containerTitle := ["Methods in Molecular Biology", "My Book"] } =
      .ok ("My Book", some "Methods in Molecular Biology") :=
  ((C6_book_chapter_series.1 "10.1/x" "Methods in Molecular Biology" "My Book"
    { containerTitle := ["Methods in Molecular Biology", "My Book"] }
    (by rfl) (by rfl)).1) rfl

/-- C7: the fuzzy name matcher agrees with the five reference examples,
comparison stops at the shorter token list, and two (non-empty) given-name
tokens match exactly when they are equal or one is a single-character
prefix of the other. -/
theorem C7_is_same_person :
    is_same_person "Doe" "John" "Doe" "John" = .ok true ∧
    is_same_person "Doe" "John" "Doe" "Mary" = .ok false ∧
    is_same_person "Doe" "John-Paul" "Doe" "J P" = .ok true ∧
    is_same_person "Doe" "John" "Doe" "" = .ok false ∧
    is_same_person "Doe" "" "Doe" "" = .ok true ∧
    is_same_person "Doe" "John Extra" "Doe" "John" = .ok true ∧
    (∀ t1 t2 : List Char, t1 ≠ [] → t2 ≠ [] →
      (givenTokenMatch t1 t2 = .ok true ↔
        (t1 = t2 ∨ (t1.length = 1 ∧ t1 <+: t2) ∨ (t2.length = 1 ∧ t2 <+: t1)))) := by
  refine ⟨by rfl, by rfl, by rfl, by rfl, by rfl, by rfl, fun t1 t2 h1 h2 => ?_⟩
  obtain ⟨c, t1', rfl⟩ : ∃ c t1', t1 = c :: t1' := by
    cases t1 with
    | nil => exact absurd rfl h1
    | cons c t => exact ⟨c, t, rfl⟩
  obtain ⟨d, t2', rfl⟩ : ∃ d t2', t2 = d :: t2' := by
    cases t2 with
    | nil => exact absurd rfl h2
    | cons d t => exact ⟨d, t, rfl⟩
  unfold givenTokenMatch
  by_cases heq : c :: t1' = d :: t2'
  · simp [heq]
  · simp only [if_neg heq]
    by_cases h3 : [c] = d :: t2'
    · simp only [if_pos h3]
      constructor
      · intro _
        refine Or.inr (Or.inr ⟨?_, ?_⟩)
        · rw [← h3]
          rfl
        · rw [← h3]
          exact ⟨t1', rfl⟩
      · intro _
        trivial
    · simp only [if_neg h3]
      constructor
      · intro hok
        have ht : c :: t1' = [d] := by
          have := congrArg (fun e => match e with | Except.ok b => b | _ => false) hok
          simpa using this
        refine Or.inr (Or.inl ⟨?_, ?_⟩)
        · rw [ht]
          rfl
        · rw [ht]
          exact List.cons_prefix_cons.mpr ⟨rfl, List.nil_prefix⟩
      · rintro (h | ⟨hlen, hpre⟩ | ⟨hlen, hpre⟩)
        · exact absurd h heq
        · have ht1 : t1' = [] := by
            simpa using hlen
          subst ht1
          rcases List.cons_prefix_cons.mp hpre with ⟨rfl, -⟩
          simp
        · have ht2 : t2' = [] := by
            simpa using hlen
          subst ht2
          rcases List.cons_prefix_cons.mp hpre with ⟨rfl, -⟩
          exact absurd rfl h3

/-- Witness for C7: the token rule applied at the concrete tokens "jo"
and "j" (a single-character prefix). -/
theorem C7_is_same_person_witness :
    givenTokenMatch ['j', 'o'] ['j'] = .ok true :=
  (C7_is_same_person.2.2.2.2.2.2 ['j', 'o'] ['j'] (by decide) (by decide)).mpr
    (Or.inr (Or.inr ⟨rfl, ⟨['o'], rfl⟩⟩))

/-- A token comparison between non-empty tokens never raises. -/
theorem givenTokenMatch_total (t1 t2 : List Char) (h1 : t1 ≠ []) (h2 : t2 ≠ []) :
    ∃ b, givenTokenMatch t1 t2 = .ok b := by
  cases t1 with
  | nil => exact absurd rfl h1
  | cons c t1' =>
    cases t2 with
    | nil => exact absurd rfl h2
    | cons d t2' =>
      unfold givenTokenMatch
      by_cases heq : c :: t1' = d :: t2'
      · exact ⟨true, by simp [heq]⟩
      · by_cases h3 : [c] = d :: t2'
        · exact ⟨true, by simp [heq, h3]⟩
        · exact ⟨decide (c :: t1' = [d]), by simp [heq, h3]⟩

/-- The given-name loop never raises when every compared token pair is
non-empty. -/
theorem givenZipLoop_total (l : List (List Char × List Char))
    (h : ∀ p ∈ l, p.1 ≠ [] ∧ p.2 ≠ []) : ∃ b, givenZipLoop l = .ok b := by
  induction l with
  | nil => exact ⟨true, rfl⟩
  | cons p rest ih =>
    obtain ⟨hp1, hp2⟩ := h p (List.mem_cons_self p rest)
    obtain ⟨b, hb⟩ := givenTokenMatch_total p.1 p.2 hp1 hp2
    obtain ⟨b', hb'⟩ := ih (fun q hq => h q (List.mem_cons_of_mem p hq))
    cases b with
    | true => exact ⟨b', by unfold givenZipLoop; rw [hb]; simpa using hb'⟩
    | false => exact ⟨false, by unfold givenZipLoop; rw [hb]; rfl⟩

/-- C10: the name matcher is total only under an unstated precondition:
empty family-name arguments fail an assertion, and a given-name token that
becomes empty after splitting and dot-stripping (e.g. "." or a trailing
space) raises an IndexError when compared against a non-equal token; when
both family names are non-empty and no processed given-name token is
empty, the matcher always returns a boolean. -/
theorem C10_matcher_totality :
    is_same_person "" "John" "Doe" "John" = .error "AssertionError: family_names1" ∧
    is_same_person "Doe" "." "Doe" "John" = .error "IndexError" ∧
    is_same_person "Doe" "John " "Doe" "John Paul" = .error "IndexError" ∧
    (∀ f1 g1 f2 g2 : String, f1 ≠ "" → f2 ≠ "" →
      (∀ t ∈ processName g1, t ≠ []) → (∀ t ∈ processName g2, t ≠ []) →
      ∃ b, is_same_person f1 g1 f2 g2 = .ok b) := by
  refine ⟨by rfl, by rfl, by rfl, fun f1 g1 f2 g2 hf1 hf2 hg1 hg2 => ?_⟩
  unfold is_same_person
  simp only [if_neg hf1, if_neg hf2]
  by_cases hfam : ((processName f1).zip (processName f2)).any (fun ab => !(ab.1 == ab.2))
  · exact ⟨false, by rw [if_pos hfam]⟩
  · rw [if_neg hfam]
    by_cases hboth : g1 = "" ∧ g2 = ""
    · exact ⟨true, by rw [if_pos hboth]⟩
    · rw [if_neg hboth]
      by_cases hone : g1 = "" ∨ g2 = ""
      · exact ⟨false, by rw [if_pos hone]⟩
      · rw [if_neg hone]
        refine givenZipLoop_total _ (fun p hp => ?_)
        obtain ⟨hm1, hm2⟩ := List.of_mem_zip hp
        exact ⟨hg1 p.1 hm1, hg2 p.2 hm2⟩

/-- Witness for C10: totality at a concrete well-formed input. -/
theorem C10_matcher_totality_witness :
    ∃ b, is_same_person "Doe" "John Paul" "Doe" "J P" = .ok b :=
  C10_matcher_totality.2.2.2 "Doe" "John Paul" "Doe" "J P"
    (by decide) (by decide) (by decide) (by decide)

/-- C8 counterexample: with two roster entries sharing family and given
names, the surviving entry is the LATER one ("bob"), not the earlier one
("alice") that the claim says is kept. -/
theorem C8_counterexample :
    get_users_dedup
        [{ username := "alice", family_names := "Doe", given_names := "John" },
         { username := "bob", family_names := "Doe", given_names := "John" }] =
      [{ username := "bob", family_names := "Doe", given_names := "John" }] ∧
    ("alice" : String) ≠ "bob" := by
  exact ⟨rfl, by decide⟩

/-- C8 (amended): duplicate roster entries are detected and the EARLIER
occurrence is dropped (the later one is kept); duplicates are never fatal,
and author-name resolution proceeds with the first-found candidate among
the surviving users. -/
theorem C8_amended_dedup :
    (∀ u1 u2 : User, u1.given_names = u2.given_names → u1.family_names = u2.family_names →
      get_users_dedup [u1, u2] = [u2]) ∧
    (∀ (users : List User) (a : Author) (o : String) (u : User) (rest : List User),
      a.orcid_id = some o → o ≠ "" →
      users.filter (fun u' => u'.orcid_id == some o) = u :: rest →
      author_dict_to_username users a = .ok (some u.username)) := by
  constructor
  · intro u1 u2 hg hf
    unfold get_users_dedup
    simp [List.enum, hg, hf]
  · intro users a o u rest ho hne hfilter
    unfold author_dict_to_username
    rw [ho]
    simp only [bne_iff_ne, ne_eq, hne, not_false_eq_true, if_pos, hfilter]
    rfl

/-- Witness for C8: the amended behaviour at a concrete two-entry
roster. -/
theorem C8_amended_dedup_witness :
    get_users_dedup
        [{ username := "carol", family_names := "Roe", given_names := "Jan" },
         { username := "dave", family_names := "Roe", given_names := "Jan" }] =
      [{ username := "dave", family_names := "Roe", given_names := "Jan" }] :=
  C8_amended_dedup.1
    { username := "carol", family_names := "Roe", given_names := "Jan" }
    { username := "dave", family_names := "Roe", given_names := "Jan" } rfl rfl

/-- The Crossref branch succeeds exactly when it sets metadata_ok. -/
theorem crBranch_ok (doi : String) (p : Pub) (env : Env) (hp : p.metadata_ok = false) :
    ((crBranch doi p env).2 = PubOutcome.ok ↔ (crBranch doi p env).1.metadata_ok = true) := by
  unfold crBranch
  repeat' split
  all_goals simp_all

/-- The DataCite branch tail succeeds exactly when it sets metadata_ok. -/
theorem dcAfterContainer_ok (p : Pub) (m : DCMeta) (ct : String) (hp : p.metadata_ok = false) :
    ((dcAfterContainer p m ct).2 = PubOutcome.ok ↔
      (dcAfterContainer p m ct).1.metadata_ok = true) := by
  unfold dcAfterContainer
  repeat' split
  all_goals simp_all

/-- The DataCite branch succeeds exactly when it sets metadata_ok. -/
theorem dcBranch_ok (doi : String) (p : Pub) (env : Env) (hp : p.metadata_ok = false) :
    ((dcBranch doi p env).2 = PubOutcome.ok ↔ (dcBranch doi p env).1.metadata_ok = true) := by
  unfold dcBranch
  repeat' split
  all_goals first
    | (exact dcAfterContainer_ok _ _ _ (by simpa using hp))
    | simp_all

/-- One record's enrichment succeeds exactly when it sets metadata_ok. -/
theorem processRecord_ok (doi : String) (p0 : Pub) (env : Env) :
    ((processRecord doi p0 env).2 = PubOutcome.ok ↔
      (processRecord doi p0 env).1.metadata_ok = true) := by
  unfold processRecord
  repeat' split
  all_goals first
    | (exact crBranch_ok _ _ _ (by rfl))
    | (exact dcBranch_ok _ _ _ (by rfl))
    | simp_all

/-- The enrichment loop unfolded by one record. -/
theorem enrichLoop_cons (doi : String) (p : Pub) (env : Env)
    (rest : List (String × Pub × Env)) :
    enrichLoop ((doi, p, env) :: rest) =
      match (processRecord doi p env).2 with
      | .exc e =>
        if isFatal e then .error e
        else (enrichLoop rest).map (fun l => (doi, (processRecord doi p env).1) :: l)
      | _ => (enrichLoop rest).map (fun l => (doi, (processRecord doi p env).1) :: l) := rfl

/-- C1 counterexample: a record whose Crossref normalization fails after
the title was assigned (unknown publication type) keeps the partially
normalized title on the record while metadata_ok stays false, so a record
whose normalization fails partway does retain normalized fields. -/
theorem C1_counterexample :
    processRecord "10.1/x" {}
        { raResp := .ok { RA := some "Crossref" },
          crMeta := .ok { title := ["T"], type := "weird" },
          oaStatus := .error (.other "u"),
          dcMeta := .error (.other "u") } =
      ({ metadata_ok := false, RA := some "Crossref", title := some "T" },
        .exc (.other "unknown publication type weird")) := rfl

/-- C1 (amended): metadata_ok becomes true exactly on full success of a
record's normalization; any fatal condition leaves metadata_ok = false
and, unless the error carries the exhausted-retries message, aborts only
that record — but normalized fields assigned before the failure may
remain set on the record (they are ignored downstream, where
serialization requires metadata_ok). -/
theorem C1_amended_metadata_ok :
    (∀ (doi : String) (p0 : Pub) (env : Env),
      ((processRecord doi p0 env).2 = PubOutcome.ok ↔
        (processRecord doi p0 env).1.metadata_ok = true)) ∧
    (∀ (doi : String) (p0 : Pub) (env : Env) (e : RfError),
      (processRecord doi p0 env).2 = PubOutcome.exc e →
      (processRecord doi p0 env).1.metadata_ok = false) ∧
    (∀ (doi : String) (p0 : Pub) (env : Env) (rest : List (String × Pub × Env)) (e : RfError),
      (processRecord doi p0 env).2 = PubOutcome.exc e → isFatal e = false →
      enrichLoop ((doi, p0, env) :: rest) =
        (enrichLoop rest).map (fun l => (doi, (processRecord doi p0 env).1) :: l)) := by
  refine ⟨processRecord_ok, fun doi p0 env e he => ?_, fun doi p0 env rest e he hf => ?_⟩
  · have h := (processRecord_ok doi p0 env).mpr
    rw [he] at h
    by_contra hm
    rw [Bool.not_eq_false] at hm
    exact PubOutcome.noConfusion (h hm)
  · rw [enrichLoop_cons, he]
    simp [hf]

/-- Witness for C1: the non-fatal failing record above is contained and
the loop continues, producing the partially mutated record. -/
theorem C1_amended_metadata_ok_witness :
    enrichLoop [("10.1/x", {},
        { raResp := .ok { RA := some "Crossref" },
          crMeta := .ok { title := ["T"], type := "weird" },
          oaStatus := .error (.other "u"),
          dcMeta := .error (.other "u") })] =
      .ok [("10.1/x", { metadata_ok := false, RA := some "Crossref", title := some "T" })] :=
  (C1_amended_metadata_ok.2.2 "10.1/x" {}
    { raResp := .ok { RA := some "Crossref" },
      crMeta := .ok { title := ["T"], type := "weird" },
      oaStatus := .error (.other "u"),
      dcMeta := .error (.other "u") } []
    (.other "unknown publication type weird") rfl rfl).trans rfl

/-- The exhausted-retries message always carries the prefix that the
per-record handler checks. -/
theorem isFatal_exhausted_eq (url : String) : isFatal (.exhausted url) = true := by
  unfold isFatal RfError.message pyStartsWith
  rw [List.isPrefixOf_iff_prefix]
  have h1 : ("Failed too many times to get URL").data <+:
      ("Failed too many times to get URL ").data := ⟨[' '], by decide⟩
  have h2 : ("Failed too many times to get URL ").data <+:
      ("Failed too many times to get URL " ++ url).data := by
    rw [String.data_append]
    exact List.prefix_append _ _
  exact h1.trans h2

/-- C5 counterexample: the handler distinguishes the exhausted-retries
error only by its message prefix, so a per-record normalization exception
that happens to carry that prefix (here: the registration agency status
string raised for a DOI without an RA) is re-raised and aborts the run
instead of being contained. -/
theorem C5_counterexample :
    enrichLoop
        [("10.1/z", {},
          { raResp := .ok { RA := none, status := "Failed too many times to get URL x" },
            crMeta := .error (.other "u"),
            oaStatus := .error (.other "u"),
            dcMeta := .error (.other "u") }),
         ("10.1/w", {},
          { raResp := .ok { RA := none, status := "s" },
            crMeta := .error (.other "u"),
            oaStatus := .error (.other "u"),
            dcMeta := .error (.other "u") })] =
      .error (.other "Failed too many times to get URL x") := rfl

/-- C5 (amended): the fetcher's exhausted-retries error is always treated
as fatal and propagates past any earlier non-aborting records; an
exception is contained at the per-DOI boundary exactly when its message
does not start with the exhausted-retries prefix (the code distinguishes
the cases by that string prefix alone, so another exception carrying the
prefix also aborts the run). -/
theorem C5_amended_fatal :
    (∀ url, isFatal (RfError.exhausted url) = true) ∧
    (∀ (doi : String) (p : Pub) (env : Env) (rest : List (String × Pub × Env)) (e : RfError),
      (processRecord doi p env).2 = PubOutcome.exc e → isFatal e = true →
      enrichLoop ((doi, p, env) :: rest) = .error e) ∧
    (∀ (doi : String) (p : Pub) (env : Env) (rest : List (String × Pub × Env)) (e : RfError),
      (processRecord doi p env).2 = PubOutcome.exc e → isFatal e = false →
      enrichLoop ((doi, p, env) :: rest) =
        (enrichLoop rest).map (fun l => (doi, (processRecord doi p env).1) :: l)) ∧
    (∀ (pre l : List (String × Pub × Env)) (e : RfError),
      (∀ x ∈ pre, abortsRecord x = false) → enrichLoop l = .error e →
      enrichLoop (pre ++ l) = .error e) := by
  refine ⟨isFatal_exhausted_eq, fun doi p env rest e he hf => ?_, fun doi p env rest e he hf => ?_,
    fun pre l e hpre hl => ?_⟩
  · rw [enrichLoop_cons, he]
    simp [hf]
  · rw [enrichLoop_cons, he]
    simp [hf]
  · induction pre with
    | nil => simpa using hl
    | cons x pre' ih =>
      obtain ⟨doi, p, env⟩ := x
      have hx := hpre _ (List.mem_cons_self _ _)
      have ih' := ih (fun y hy => hpre y (List.mem_cons_of_mem _ hy))
      have hx' : (match (processRecord doi p env).2 with
          | PubOutcome.exc e => isFatal e
          | _ => false) = false := hx
      rw [List.cons_append, enrichLoop_cons]
      rcases ho : (processRecord doi p env).2 with _ | _ | e' <;>
        rw [ho] at hx' <;> simp_all [Except.map]

/-- Witness for C5: a record whose DOI registry fetch exhausts its retries
aborts a run even when a healthy record follows. -/
theorem C5_amended_fatal_witness :
    enrichLoop
        [("10.1/z", {},
          { raResp := .error (.exhausted "https://doi.org/doiRA/10.1%2Fz"),
            crMeta := .error (.other "u"),
            oaStatus := .error (.other "u"),
            dcMeta := .error (.other "u") })] =
      .error (.exhausted "https://doi.org/doiRA/10.1%2Fz") :=
  C5_amended_fatal.2.1 "10.1/z" {}
    { raResp := .error (.exhausted "https://doi.org/doiRA/10.1%2Fz"),
      crMeta := .error (.other "u"),
      oaStatus := .error (.other "u"),
      dcMeta := .error (.other "u") } []
    (.exhausted "https://doi.org/doiRA/10.1%2Fz") rfl
    (C5_amended_fatal.1 "https://doi.org/doiRA/10.1%2Fz")

/-- Successful serialization of a record determines an extracted field
tuple whose series title and category come from the record. -/
theorem write_pub_inv (users : List User) (doi : String) (p : Pub)
    (l : List (String × Option String)) (h : write_pub_elements users doi p = .ok l) :
    ∃ f : PubXmlFields, l = pub_element_list doi f ∧ f.seriesTitle = p.series_title ∧
      ∃ pt, p.type = some pt ∧ lookupStr CR_TYPE_TO_XML_CATEGORY_ID pt = some f.categoryId := by
  unfold write_pub_elements at h
  repeat' split at h
  all_goals cases h
  exact ⟨_, rfl, rfl, _, by assumption, by assumption⟩

/-- Every emitted record carries the volume, pages, date and venue slots. -/
theorem pub_element_list_tags (doi : String) (f : PubXmlFields) :
    "JournalVolume" ∈ (pub_element_list doi f).map Prod.fst ∧
    "JournalPages" ∈ (pub_element_list doi f).map Prod.fst ∧
    "Year" ∈ (pub_element_list doi f).map Prod.fst ∧
    "Month" ∈ (pub_element_list doi f).map Prod.fst ∧
    "Day" ∈ (pub_element_list doi f).map Prod.fst ∧
    "JournalName" ∈ (pub_element_list doi f).map Prod.fst := by
  unfold pub_element_list
  repeat' split
  all_goals simp

/-- A SeriesTitle element appears exactly for a book-chapter category with
the series-title key present. -/
theorem pub_element_list_series (doi : String) (f : PubXmlFields) :
    ("SeriesTitle" ∈ (pub_element_list doi f).map Prod.fst ↔
      (f.seriesTitle ≠ none ∧ f.categoryId ≠ "1" ∧ f.categoryId ≠ "124")) := by
  unfold pub_element_list
  repeat' split
  all_goals simp_all [beq_iff_eq]
  all_goals tauto

/-- Book-chapter categories always emit an empty JournalName element. -/
theorem pub_element_list_bookchapter (doi : String) (f : PubXmlFields)
    (h1 : f.categoryId ≠ "1") (h2 : f.categoryId ≠ "124") :
    ("JournalName", some "") ∈ pub_element_list doi f := by
  unfold pub_element_list
  have : (f.categoryId == "1" || f.categoryId == "124") = false := by
    simp [h1, h2]
  rw [this]
  simp

/-- C9 counterexample: a metadata_ok journal-article record whose volume,
pages, month and day keys hold None still emits JournalVolume,
JournalPages, Month and Day elements (with no text), so absent optional
fields are emitted as empty elements rather than omitted. -/
theorem C9_counterexample :
    write_pub_elements [] "10.1/x"
        { metadata_ok := true, type := some "journal-article", title := some "T",
          container_title := some "J", volume := some none, pages := some none,
          authors := some [{ family_names := some "Doe", given_names := some "John" }],
          year := some (some (.int 2020)), month := some none, day := some none,
          oa_status := some "closed" } =
      .ok [("id", some "10.1/x"), ("Organisation", some "EI"),
           ("Category", some "Journal Article"), ("CategoryID", some "1"),
           ("Title", some "T"), ("DOI", some "10.1/x"), ("JournalName", some "J"),
           ("JournalVolume", none), ("JournalPages", none), ("ContributorIds", some ""),
           ("ContributorList", some "Doe J"), ("Year", some "2020"), ("Month", none),
           ("Day", none), ("OpenAccess", some "No Open Access")] := rfl

/-- C9 (amended): the serializer always emits the JournalVolume,
JournalPages, Year, Month and Day slots (as empty elements when the
stored value is None, rather than omitting them); the journal/book-title
slot is always present, as an empty string for book-chapter categories;
the one field genuinely omitted when absent is SeriesTitle. -/
theorem C9_amended_serializer :
    ∀ (users : List User) (doi : String) (p : Pub) (l : List (String × Option String)),
      write_pub_elements users doi p = .ok l →
      ("JournalVolume" ∈ l.map Prod.fst ∧ "JournalPages" ∈ l.map Prod.fst ∧
       "Year" ∈ l.map Prod.fst ∧ "Month" ∈ l.map Prod.fst ∧ "Day" ∈ l.map Prod.fst ∧
       "JournalName" ∈ l.map Prod.fst) ∧
      (p.series_title = none → "SeriesTitle" ∉ l.map Prod.fst) ∧
      ((p.type = some "book-chapter" ∨ p.type = some "proceedings-article") →
        ("JournalName", some "") ∈ l ∧
        ("SeriesTitle" ∈ l.map Prod.fst ↔ p.series_title ≠ none)) := by
  intro users doi p l h
  obtain ⟨f, rfl, hs, pt, hpt, hcat⟩ := write_pub_inv users doi p l h
  refine ⟨pub_element_list_tags doi f, fun hn => ?_, fun hbc => ?_⟩
  · rw [pub_element_list_series]
    rw [hs, hn]
    simp
  · have hcid : f.categoryId = "2" := by
      rcases hbc with hb | hb <;>
        (rw [hpt] at hb
         injection hb with hb
         rw [hb] at hcat
         have h2 : some "2" = some f.categoryId := hcat
         injection h2 with h2
         exact h2.symm)
    constructor
    · exact pub_element_list_bookchapter doi f (by rw [hcid]; decide) (by rw [hcid]; decide)
    · rw [pub_element_list_series, hs, hcid]
      simp

/-- Witness for C9: the amended properties at the concrete record above. -/
theorem C9_amended_serializer_witness :
    ("JournalVolume" ∈
      ([("id", some "10.1/x"), ("Organisation", some "EI"),
        ("Category", some "Journal Article"), ("CategoryID", some "1"),
        ("Title", some "T"), ("DOI", some "10.1/x"), ("JournalName", some "J"),
        ("JournalVolume", none), ("JournalPages", none), ("ContributorIds", some ""),
        ("ContributorList", some "Doe J"), ("Year", some "2020"), ("Month", none),
        ("Day", none), ("OpenAccess", some "No Open Access")] :
        List (String × Option String)).map Prod.fst) ∧
    ¬ ("SeriesTitle" ∈
      ([("id", some "10.1/x"), ("Organisation", some "EI"),
        ("Category", some "Journal Article"), ("CategoryID", some "1"),
        ("Title", some "T"), ("DOI", some "10.1/x"), ("JournalName", some "J"),
        ("JournalVolume", none), ("JournalPages", none), ("ContributorIds", some ""),
        ("ContributorList", some "Doe J"), ("Year", some "2020"), ("Month", none),
        ("Day", none), ("OpenAccess", some "No Open Access")] :
        List (String × Option String)).map Prod.fst) :=
  ⟨(C9_amended_serializer [] "10.1/x"
      { metadata_ok := true, type := some "journal-article", title := some "T",
        container_title := some "J", volume := some none, pages := some none,
        authors := some [{ family_names := some "Doe", given_names := some "John" }],
        year := some (some (.int 2020)), month := some none, day := some none,
        oa_status := some "closed" } _ rfl).1.1,
   (C9_amended_serializer [] "10.1/x"
      { metadata_ok := true, type := some "journal-article", title := some "T",
        container_title := some "J", volume := some none, pages := some none,
        authors := some [{ family_names := some "Doe", given_names := some "John" }],
        year := some (some (.int 2020)), month := some none, day := some none,
        oa_status := some "closed" } _ rfl).2.1 rfl⟩

/-- takeWhile of a split whose left part satisfies the predicate and whose
right part starts with a failing element is exactly the left part. -/
theorem takeWhile_eq_of_append {α : Type} (pr : α → Bool) (u v : List α)
    (hu : ∀ x ∈ u, pr x = true) (hv : ∀ c cs, v = c :: cs → pr c = false) :
    (u ++ v).takeWhile pr = u := by
  induction u with
  | nil =>
    cases v with
    | nil => rfl
    | cons c cs => simp [List.takeWhile_cons, hv c cs rfl]
  | cons a u ih =>
    have ha : pr a = true := hu a (by simp)
    simp only [List.cons_append, List.takeWhile_cons, if_pos ha, List.cons.injEq, true_and]
    exact ih (fun x hx => hu x (by simp [hx]))

/-- dropWhile counterpart of takeWhile_eq_of_append. -/
theorem dropWhile_eq_of_append {α : Type} (pr : α → Bool) (u v : List α)
    (hu : ∀ x ∈ u, pr x = true) (hv : ∀ c cs, v = c :: cs → pr c = false) :
    (u ++ v).dropWhile pr = v := by
  have ht := takeWhile_eq_of_append pr u v hu hv
  have h2 := List.takeWhile_append_dropWhile pr (u ++ v)
  rw [ht] at h2
  exact List.append_cancel_left h2

/-- A prefix whose elements all satisfy the predicate is a prefix of the
takeWhile. -/
theorem prefix_takeWhile_of_all {α : Type} (pr : α → Bool) (u : List α)
    (hu : ∀ x ∈ u, pr x = true) :
    ∀ l : List α, u <+: l → u <+: l.takeWhile pr := by
  induction u with
  | nil => exact fun l _ => List.nil_prefix
  | cons a u ih =>
    intro l h
    cases l with
    | nil =>
      rw [List.prefix_nil] at h
      cases h
    | cons b t =>
      rcases List.cons_prefix_cons.mp h with ⟨rfl, htail⟩
      have ha : pr a = true := hu a (by simp)
      rw [List.takeWhile_cons, if_pos ha]
      exact List.cons_prefix_cons.mpr
        ⟨rfl, ih (fun x hx => hu x (by simp [hx])) t htail⟩

/-- A successful anchored attempt yields the longest VALID_DOI match that
is a prefix of the input. -/
theorem matchHere_decomp {l m : List Char} (h : DOI.matchHere l = some m) :
    m <+: l ∧ DOI.isDOIMatch m ∧
      (∀ m', DOI.isDOIMatch m' → m' <+: l → m'.length ≤ m.length) := by
  unfold DOI.matchHere at h
  split at h
  · cases h
  · rename_i h0
    split at h
    · rename_i rest heq
      split at h
      · cases h
      · rename_i hbne
        cases h
        have hl : l = l.takeWhile DOI.isDigitDot ++ '/' :: rest := by
          conv_lhs => rw [← List.takeWhile_append_dropWhile DOI.isDigitDot l]
          rw [heq]
        have hbpre : rest.takeWhile DOI.notNewline <+: rest := List.takeWhile_prefix _
        refine ⟨?_, ?_, ?_⟩
        · obtain ⟨t, ht⟩ := hbpre
          refine ⟨t, ?_⟩
          rw [List.append_assoc, List.cons_append, ht, ← hl]
        · refine ⟨_, _, rfl, h0, fun c hc => List.mem_takeWhile_imp hc, hbne, ?_⟩
          intro c hc
          exact List.mem_takeWhile_imp hc
        · rintro m' ⟨a', b', rfl, ha', hall', hb', hbn'⟩ ⟨t', ht'⟩
          have hl' : l = a' ++ '/' :: (b' ++ t') := by
            rw [← ht', List.append_assoc, List.cons_append]
          have htw : l.takeWhile DOI.isDigitDot = a' := by
            rw [hl']
            refine takeWhile_eq_of_append _ _ _ hall' ?_
            intro c cs hcc
            cases hcc
            decide
          have hdw : '/' :: (b' ++ t') = '/' :: rest := by
            rw [← heq, hl']
            refine (dropWhile_eq_of_append _ _ _ hall' ?_).symm
            intro c cs hcc
            cases hcc
            decide
          have hbt : b' ++ t' = rest := by
            injection hdw
          have hble : b' <+: rest.takeWhile DOI.notNewline := by
            refine prefix_takeWhile_of_all _ _ hbn' rest ?_
            exact hbt ▸ List.prefix_append b' t'
          have h1 := hble.length_le
          simp only [List.length_append, List.length_cons, htw]
          omega
    · cases h

/-- A failed anchored attempt means no VALID_DOI match starts here. -/
theorem matchHere_none {l : List Char} (h : DOI.matchHere l = none) :
    ∀ m, DOI.isDOIMatch m → ¬ m <+: l := by
  rintro m ⟨a, b, rfl, ha, hall, hb, hbn⟩ ⟨t, ht⟩
  have hl : l = a ++ '/' :: (b ++ t) := by
    rw [← ht, List.append_assoc, List.cons_append]
  have htw : l.takeWhile DOI.isDigitDot = a := by
    rw [hl]
    refine takeWhile_eq_of_append _ _ _ hall ?_
    intro c cs hcc
    cases hcc
    decide
  have hdw : l.dropWhile DOI.isDigitDot = '/' :: (b ++ t) := by
    rw [hl]
    refine dropWhile_eq_of_append _ _ _ hall ?_
    intro c cs hcc
    cases hcc
    decide
  unfold DOI.matchHere at h
  rw [if_neg (by rw [htw]; exact ha), hdw] at h
  cases b with
  | nil => exact hb rfl
  | cons c b'' =>
    have hc : DOI.notNewline c = true := hbn c (by simp)
    simp [List.takeWhile_cons, hc] at h

/-- A successful search yields a leftmost, longest-at-that-position
match. -/
theorem reSearch_some {l m : List Char} (h : DOI.reSearch l = some m) :
    ∃ i, DOI.matchAt l i m ∧ DOI.isDOIMatch m ∧
      (∀ j, j < i → ∀ m', DOI.isDOIMatch m' → ¬ DOI.matchAt l j m') ∧
      (∀ m', DOI.isDOIMatch m' → DOI.matchAt l i m' → m'.length ≤ m.length) := by
  induction l with
  | nil => cases h
  | cons c t ih =>
    unfold DOI.reSearch at h
    rcases hm : DOI.matchHere (c :: t) with _ | m0
    · rw [hm] at h
      obtain ⟨i, h1, h2, h3, h4⟩ := ih h
      refine ⟨i + 1, by simpa [DOI.matchAt] using h1, h2, ?_, ?_⟩
      · intro j hj m' hm' hat
        cases j with
        | zero => exact matchHere_none hm m' hm' (by simpa [DOI.matchAt] using hat)
        | succ j' => exact h3 j' (by omega) m' hm' (by simpa [DOI.matchAt] using hat)
      · intro m' hm' hat
        exact h4 m' hm' (by simpa [DOI.matchAt] using hat)
    · rw [hm] at h
      cases h
      obtain ⟨hpre, hmatch, hmax⟩ := matchHere_decomp hm
      exact ⟨0, by simpa [DOI.matchAt] using hpre, hmatch,
        fun j hj => absurd hj (by omega),
        fun m' h1 h2 => hmax m' h1 (by simpa [DOI.matchAt] using h2)⟩

/-- A failed search means no substring anywhere matches. -/
theorem reSearch_none {l : List Char} (h : DOI.reSearch l = none) :
    ∀ i m, DOI.isDOIMatch m → ¬ DOI.matchAt l i m := by
  induction l with
  | nil =>
    rintro i m ⟨a, b, rfl, ha, hall, hb, hbn⟩ hat
    have h0 : (a ++ '/' :: b) <+: [] := by
      have hd : List.drop i ([] : List Char) = [] := List.drop_nil
      rw [DOI.matchAt, hd] at hat
      exact hat
    rw [List.prefix_nil] at h0
    simp at h0
  | cons c t ih =>
    unfold DOI.reSearch at h
    rcases hm : DOI.matchHere (c :: t) with _ | m0
    · rw [hm] at h
      intro i m hmm hat
      cases i with
      | zero => exact matchHere_none hm m hmm (by simpa [DOI.matchAt] using hat)
      | succ i' => exact ih h i' m hmm (by simpa [DOI.matchAt] using hat)
    · rw [hm] at h
      cases h

/-- C2 counterexample: the input "1/ " contains a substring matching the
VALID_DOI pattern (namely "1/ " itself, whose suffix is a space), yet DOI
parsing fails, because trimming removes the trailing space and leaves
"1/", which has no match — so parsing does not succeed for every
non-empty string containing a matching substring. -/
theorem C2_counterexample :
    ("1/ " : String) ≠ "" ∧ DOI.containsMatch "1/ ".data ∧
      DOI.parse "1/ " = .error "malformed DOI" := by
  refine ⟨by decide,
    ⟨0, ['1', '/', ' '],
      ⟨['1'], [' '], rfl, by decide, by decide, by decide, by decide⟩, ?_⟩, by rfl⟩
  show ['1', '/', ' '] <+: List.drop 0 "1/ ".data
  exact ⟨[], by decide⟩

/-- C2 (amended): for every input string whose whitespace-trimmed form
contains a substring matching the VALID_DOI pattern, parsing succeeds and
yields the match at the leftmost matching position of the trimmed string
(the greedy, longest match at that position); for "", "A", "NA", "n/a"
and any string whose trimmed form has no matching substring, parsing
fails. -/
theorem C2_amended_parse :
    (∀ s : String, DOI.containsMatch (pyStrip s.data) →
      ∃ i m, DOI.parse s = .ok (String.mk m) ∧ DOI.isDOIMatch m ∧
        DOI.matchAt (pyStrip s.data) i m ∧
        (∀ j, j < i → ∀ m', DOI.isDOIMatch m' → ¬ DOI.matchAt (pyStrip s.data) j m') ∧
        (∀ m', DOI.isDOIMatch m' → DOI.matchAt (pyStrip s.data) i m' →
          m'.length ≤ m.length)) ∧
    DOI.parse "" = .error "no DOI" ∧ DOI.parse "A" = .error "no DOI" ∧
    DOI.parse "NA" = .error "no DOI" ∧ DOI.parse "n/a" = .error "no DOI" ∧
    (∀ s : String, ¬ DOI.containsMatch (pyStrip s.data) →
      ∃ msg, DOI.parse s = .error msg) := by
  refine ⟨fun s hcm => ?_, by rfl, by rfl, by rfl, by rfl, fun s hnc => ?_⟩
  · rcases hr : DOI.reSearch (pyStrip s.data) with _ | m0
    · obtain ⟨i, m, hm, hat⟩ := hcm
      exact absurd hat (reSearch_none hr i m hm)
    · obtain ⟨i, h1, h2, h3, h4⟩ := reSearch_some hr
      have hplh : ¬ (String.mk (pyStrip s.data) = "" ∨ String.mk (pyStrip s.data) = "A" ∨
          String.mk (pyStrip s.data) = "NA" ∨ String.mk (pyStrip s.data) = "n/a") := by
        rintro (hx | hx | hx | hx) <;>
          (have hd := congrArg String.data hx
           simp only at hd
           rw [hd] at hr
           cases hr)
      refine ⟨i, m0, ?_, h2, h1, h3, h4⟩
      unfold DOI.parse
      rw [if_neg hplh, hr]
  · rcases hr : DOI.reSearch (pyStrip s.data) with _ | m0
    · by_cases hpl : (String.mk (pyStrip s.data) = "" ∨ String.mk (pyStrip s.data) = "A" ∨
          String.mk (pyStrip s.data) = "NA" ∨ String.mk (pyStrip s.data) = "n/a")
      · exact ⟨"no DOI", by unfold DOI.parse; rw [if_pos hpl]⟩
      · exact ⟨"malformed DOI", by unfold DOI.parse; rw [if_neg hpl, hr]⟩
    · obtain ⟨i, h1, h2, _, _⟩ := reSearch_some hr
      exact absurd ⟨i, m0, h2, h1⟩ hnc

/-- Witness for C2: parsing "doi:10.1/abc" succeeds with the leftmost
greedy match of its trimmed form. -/
theorem C2_amended_parse_witness :
    ∃ i m, DOI.parse "doi:10.1/abc" = .ok (String.mk m) ∧ DOI.isDOIMatch m ∧
      DOI.matchAt (pyStrip "doi:10.1/abc".data) i m ∧
      (∀ j, j < i → ∀ m', DOI.isDOIMatch m' →
        ¬ DOI.matchAt (pyStrip "doi:10.1/abc".data) j m') ∧
      (∀ m', DOI.isDOIMatch m' → DOI.matchAt (pyStrip "doi:10.1/abc".data) i m' →
        m'.length ≤ m.length) :=
  C2_amended_parse.1 "doi:10.1/abc"
    ⟨4, "10.1/abc".data,
      ⟨"10.1".data, "abc".data, by decide, by decide, by decide, by decide, by decide⟩,
      ⟨[], by decide⟩⟩
